import Mathlib

/-!
Shallow embedding of the CSV ingestion / patch / encode core of `src/app.py`
(a single-file Streamlit app that edits a year-indexed identifier registry
stored as a CSV file).  Python strings are modelled as `List Char`, byte
strings as `List Nat`.  Each definition's doc comment names the source
construct it embeds.
-/

deriving instance DecidableEq for Except

/-- Python `s.split(sep)` for a one-character separator `sep`, as used by
`original_text.split('\n')` and `lines[i + 1].split(',')` in `app.py`
(lines 173, 176, 424, 427).  Splitting the empty string yields `[[]]`, and
separators at either end produce empty fields, exactly as in CPython. -/
def pySplit (sep : Char) : List Char → List (List Char)
  | [] => [[]]
  | c :: rest =>
    if c = sep then [] :: pySplit sep rest
    else
      match pySplit sep rest with
      | [] => [[c]]
      | field :: fields => (c :: field) :: fields

/-- Python `sep.join(parts)` for a one-character separator, as used by
`','.join(values)` and `'\n'.join(lines)` in `app.py` (lines 185, 186,
436, 437). -/
def pyJoin (sep : Char) : List (List Char) → List Char
  | [] => []
  | [part] => part
  | part :: parts => part ++ sep :: pyJoin sep parts

/-- Physical line splitting as performed by the tabular reader
(`pd.read_csv`, `app.py` line 94): `\r\n`, `\r` and `\n` each terminate a
line (universal newlines).  This deliberately differs from the patch
engine's `split('\n')`, which is `pySplit '\n'`. -/
def pdLines : List Char → List (List Char)
  | [] => [[]]
  | '\r' :: '\n' :: rest => [] :: pdLines rest
  | '\r' :: rest => [] :: pdLines rest
  | '\n' :: rest => [] :: pdLines rest
  | c :: rest =>
    match pdLines rest with
    | [] => [[c]]
    | line :: ls => (c :: line) :: ls

/-- Errors surfaced by `load_csv_from_bytes` (`app.py` lines 110-113):
`emptyInput` models the `pd.errors.EmptyDataError` branch (message
"ファイルが空です"), `malformedInput` the `pd.errors.ParserError` branch. -/
inductive ParseError where
  | emptyInput
  | malformedInput
deriving DecidableEq

/-- The data frame produced by
`pd.read_csv(StringIO(text), header=0, dtype=str, keep_default_na=False)`
(`app.py` line 94).  A cell is `some tok` for a field that is physically
present (with `keep_default_na=False` no token, not even the empty one, is
converted to missing), and `none` for a structurally absent field of a row
shorter than the header: pandas fills those with NaN regardless of
`keep_default_na`. -/
structure PdFrame where
  columns : List (List Char)
  rows : List (List (Option (List Char)))
deriving DecidableEq

/-- Pads one tokenized data row to the header width `w`; fields beyond the
row's physical width are missing (NaN). -/
def padRow (w : Nat) (fields : List (List Char)) : List (Option (List Char)) :=
  fields.map some ++ List.replicate (w - fields.length) none

/-- Embeds `pd.read_csv(StringIO(text), header=0, dtype=str,
keep_default_na=False)` (`app.py` line 94): blank lines are skipped
(`skip_blank_lines=True` default), the first non-blank line is the
header, later non-blank lines are data rows tokenized by the raw comma
split, short rows are padded with missing cells, a data row wider than
the header is reported as `malformedInput`.  This is faithful exactly for
text that contains no double-quote character and in which no data line
splits wider than the header: pandas additionally parses quoted fields
(commas, and even line terminators, inside `"` quotes), raises a
tokenizing `ParserError` on an unterminated quote, and silently infers an
index column when every data row is exactly one field wider than the
header.  None of that region is modelled; every universally quantified
theorem below whose truth could depend on it therefore carries an
explicit no-quote (and, for the round trip, no-wider-line) hypothesis on
the text itself instead of relying on this function's error
classification. -/
def readCsv (text : List Char) : Except ParseError PdFrame :=
  match (pdLines text).filter (fun l => !l.isEmpty) with
  | [] => .error .emptyInput
  | header :: dataLines =>
    if dataLines.all (fun l => (pySplit ',' l).length ≤ (pySplit ',' header).length) then
      .ok ⟨pySplit ',' header,
           dataLines.map (fun l => padRow (pySplit ',' header).length (pySplit ',' l))⟩
    else .error .malformedInput

/-- Embeds `Series.astype(str)` applied to one cell of a `dtype=str` frame
(`app.py` lines 98-101, 107): a present token is kept verbatim, a missing
cell (NaN) renders as the literal text `nan`. -/
def astypeStr : Option (List Char) → List Char
  | some tok => tok
  | none => "nan".data

/-- The column labels `['年', '分配PID', '分配ID', '整備結果ID']` of the
display table built at `app.py` lines 97-102. -/
def displayColumns : List (List Char) :=
  ["年".data, "分配PID".data, "分配ID".data, "整備結果ID".data]

/-- The in-memory table `df_display` returned by `load_csv_from_bytes`:
column labels plus rows of string cells. -/
structure DisplayTable where
  columns : List (List Char)
  rows : List (List (List Char))
deriving DecidableEq

/-- Builds one display row from a parsed row when the frame has at least
four columns (`app.py` lines 97-102): positional columns 0-3 pass through
`astype(str)`. -/
def displayRow (r : List (Option (List Char))) : List (List Char) :=
  [astypeStr (r.getD 0 none), astypeStr (r.getD 1 none),
   astypeStr (r.getD 2 none), astypeStr (r.getD 3 none)]

/-- Embeds `load_csv_from_bytes` (`app.py` lines 93-109) after the byte
decoding stage (the claims below concern the parse, patch and encode
stages, so the decode cascade is applied upstream of this function): parse
the text, then either map columns 0-3 to the four managed columns (width
at least 4) or keep every column as-is, coerced to string (degraded
mode). -/
def load_csv_from_text (text : List Char) : Except ParseError DisplayTable :=
  match readCsv text with
  | .error e => .error e
  | .ok df =>
    if 4 ≤ df.columns.length then
      .ok ⟨displayColumns, df.rows.map displayRow⟩
    else
      .ok ⟨df.columns, df.rows.map (fun r => r.map astypeStr)⟩

/-- Embeds the managed-cell write token
`str(row[c]) if pd.notna(row[c]) and str(row[c]) != 'nan' else ''`
(`app.py` lines 179-181, 430-432) and likewise
`Series.astype(str).replace('nan', '')` (lines 346-351 and elsewhere):
every cell of the model is a Python `str`, and `pd.notna` is true on every
`str` value (including `''`), so only the comparison with the literal
`'nan'` is effective. -/
def deNan (cell : List Char) : List Char :=
  if cell = "nan".data then [] else cell

/-- Embeds the field assignments `values[1] = pid_str; values[2] = id_str;
values[3] = result_id_str` (`app.py` lines 182-184, 433-435) applied to
the comma-split field list of one line, reading the row's managed cells at
display positions 1-3.  Row cells are read with a default of `[]`: in the
degraded (< 4 column) table the Python code would raise `KeyError` at
`row['分配PID']`, but that access is guarded by the four-field test below,
which no line of a successfully parsed degraded file satisfies, and no
theorem below exercises it. -/
def patchedValues (vs : List (List Char)) (row : List (List Char)) : List (List Char) :=
  ((vs.set 1 (deNan (row.getD 1 []))).set 2 (deNan (row.getD 2 []))).set 3
    (deNan (row.getD 3 []))

/-- Embeds the guarded write-back `if len(values) >= 4: ...; lines[i + 1] =
','.join(values)` of the patch loop: lines with at least four fields are
rejoined from their patched field list, all other lines are left exactly
as they were. -/
def patchLine (line : List Char) (row : List (List Char)) : List Char :=
  if 4 ≤ (pySplit ',' line).length then
    pyJoin ',' (patchedValues (pySplit ',' line) row)
  else line

/-- Embeds the patch loop `for i, row in df.iterrows(): if i + 1 <
len(lines): ...` (`app.py` lines 174-185, 425-436): row `i` patches line
`i + 1` in place; rows whose target index falls beyond the line list are
skipped. -/
def patchAll (lines : List (List Char)) (i : Nat) : List (List (List Char)) → List (List Char)
  | [] => lines
  | row :: rest =>
    patchAll
      (if i + 1 < lines.length then
        lines.set (i + 1) (patchLine (lines.getD (i + 1) []) row)
      else lines)
      (i + 1) rest

/-- The patch engine (spec `applyEdits`): `lines = original_text.split('\n')`,
the patch loop, then `'\n'.join(lines)` — the identical block appears in
`save_csv_to_dropbox` (`app.py` lines 172-186) and in the download branch
(lines 423-437). -/
def applyEdits (originalText : List Char) (rows : List (List (List Char))) : List Char :=
  pyJoin '\n' (patchAll (pySplit '\n' originalText) 0 rows)

/-- Modelled fragment of CPython's `shift_jis` codec: an ASCII code point
encodes to itself as a single byte; every other character is treated as
unrepresentable.  The real codec also represents the JIS X 0208 repertoire
(Japanese text); no theorem below depends on that, and the one non-ASCII
character used in a counterexample, `'€'` (U+20AC), is genuinely absent
from shift_jis. -/
def sjisEncodeChar (c : Char) : Option (List Nat) :=
  if c.toNat < 128 then some [c.toNat] else none

/-- Embeds `text.encode('shift_jis')`: `none` models a raised
`UnicodeEncodeError`. -/
def sjisEncode : List Char → Option (List Nat)
  | [] => some []
  | c :: rest =>
    match sjisEncodeChar c, sjisEncode rest with
    | some bs, some rest2 => some (bs ++ rest2)
    | _, _ => none

/-- Standard UTF-8 encoding of one character, for `text.encode('utf-8')`. -/
def utf8EncodeChar (c : Char) : List Nat :=
  if c.toNat < 128 then [c.toNat]
  else if c.toNat < 2048 then
    [192 + c.toNat / 64, 128 + c.toNat % 64]
  else if c.toNat < 65536 then
    [224 + c.toNat / 4096, 128 + c.toNat / 64 % 64, 128 + c.toNat % 64]
  else
    [240 + c.toNat / 262144, 128 + c.toNat / 4096 % 64,
     128 + c.toNat / 64 % 64, 128 + c.toNat % 64]

/-- Embeds `text.encode('utf-8')`. -/
def utf8Encode (s : List Char) : List Nat :=
  (s.map utf8EncodeChar).flatten

/-- Embeds the download-path encoder (`app.py` lines 449-452):
`try: csv_content.encode('shift_jis') except UnicodeEncodeError:
('\uFEFF' + csv_content).encode('utf-8')`.  Total: it always produces
bytes. -/
def encodeForDownload (s : List Char) : List Nat :=
  match sjisEncode s with
  | some bs => bs
  | none => utf8Encode ('\uFEFF' :: s)

/-- Embeds the remote-overwrite encoder (`app.py` line 187):
`csv_content.encode('shift_jis')` with no handler — the enclosing `try`
catches only `dropbox.exceptions.ApiError`, so `none` models an uncaught
`UnicodeEncodeError`. -/
def encodeForDropboxSave (s : List Char) : Option (List Nat) :=
  sjisEncode s

/-- The column label `'年'`. -/
def yearName : List Char := "年".data

/-- Position of a named column in the display table, i.e. membership in
`df.columns` together with the positional index used to read it. -/
def findCol (t : DisplayTable) (name : List Char) : Option Nat :=
  t.columns.findIdx? (fun c => c = name)

/-- Embeds `df['年'].astype(str).tolist() if '年' in df.columns else []`
(`app.py` line 320); cells are already strings, so `astype(str)` is the
identity. -/
def existingYears (t : DisplayTable) : List (List Char) :=
  match findCol t yearName with
  | some j => t.rows.map (fun r => r.getD j [])
  | none => []

/-- Embeds `pd.concat([df, new_row], ignore_index=True)` (`app.py` line
332) for the two column layouts the app reaches: concatenating the fresh
session frame (`pd.DataFrame()`, no columns) with the new row yields the
new row's frame, and concatenating a frame with the canonical four columns
appends the row.  The column-union semantics `pd.concat` applies to any
other layout is not modelled, and no theorem below exercises one. -/
def concatRow (t : DisplayTable) (r : List (List Char)) : DisplayTable :=
  if t.columns = [] then ⟨displayColumns, [r]⟩ else ⟨t.columns, t.rows ++ [r]⟩

/-- Embeds `str.extract('(\d+)')` on one cell: the first maximal run of
decimal digits, or NaN (`none`) when the cell has none. -/
def firstDigitRun : List Char → Option (List Char)
  | [] => none
  | c :: rest =>
    if c.isDigit then some (c :: rest.takeWhile Char.isDigit)
    else firstDigitRun rest

/-- Numeric value of a digit run. -/
def digitsVal (ds : List Char) : Nat :=
  ds.foldl (fun n c => n * 10 + (c.toNat - 48)) 0

/-- Floor of the base-2 logarithm, computed with explicit fuel so that
concrete evaluations reduce structurally in the kernel; exact whenever
`fuel` is at least the bit length of `n`. -/
def log2Fuel : Nat → Nat → Nat
  | 0, _ => 0
  | fuel + 1, n => if n < 2 then 0 else log2Fuel fuel (n / 2) + 1

/-- Numeral for `2 ^ 1024`, the first power of two beyond the double
range; used as the model's representation of float infinity. -/
def floatOverflow : Nat :=
  179769313486231590772930519078902473361797697894230657273430081157732675805500963132708477322407536021120113879871393357658789768814416622492847430639474124377767893424865485276302219601246094119453082952085005768838150682342462881473913110540827237163350510684586298239947245938479716304835356329624224137216

/-- The exact value of `float(s)` for a run `ds` of decimal digits:
IEEE-754 double semantics, i.e. the value itself below `2 ^ 53` and
otherwise rounding (half to even) to 53 significant bits, with overflow
beyond the largest finite double mapped to the single value
`floatOverflow` (infinity — all overflowing runs compare equal, as their
floats do).  `4 * ds.length` fuels the logarithm since
`10 ^ len < 2 ^ (4 * len)` bounds the value's bit length. -/
def floatOfDigits (ds : List Char) : Nat :=
  if digitsVal ds < 2 ^ 53 then digitsVal ds
  else
    let k := log2Fuel (4 * ds.length) (digitsVal ds) - 52
    let q := digitsVal ds / 2 ^ k
    let r := digitsVal ds % 2 ^ k
    let rounded := if 2 ^ (k - 1) < r then q + 1
      else if r < 2 ^ (k - 1) then q
      else if q % 2 = 0 then q else q + 1
    if floatOverflow ≤ rounded * 2 ^ k then floatOverflow else rounded * 2 ^ k

/-- The sort key `df['年_数値']` (`app.py` line 337): the first digit run
of a cell converted by `astype(float)` — modelled exactly, including the
double rounding that collapses distinct runs of 16 or more digits — and
NaN (`none`) when the cell has no digits. -/
def extractKey (cell : List Char) : Option Nat :=
  (firstDigitRun cell).map floatOfDigits

/-- Key comparison of `sort_values('年_数値', na_position='last')`:
numeric ascending, missing keys last. -/
def keyLeB : Option Nat → Option Nat → Bool
  | some a, some b => Nat.ble a b
  | some _, none => true
  | none, some _ => false
  | none, none => true

/-- Row ordering used by the year sort, keyed on the cell at position `j`
(the position of column `'年'`). -/
def rowLeAt (j : Nat) (r1 r2 : List (List Char)) : Prop :=
  keyLeB (extractKey (r1.getD j [])) (extractKey (r2.getD j [])) = true

instance rowLeAtDecidable (j : Nat) : DecidableRel (rowLeAt j) :=
  fun _ _ => instDecidableEqBool _ _

/-- Embeds `df.sort_values('年_数値', na_position='last')` after the key
column is built from `'年'` (`app.py` lines 336-339): a sort by the
extracted float key with missing keys last.  pandas's default `quicksort`
kind specifies no order for equal keys; the model determinizes ties to
insertion order, which matches numpy's actual behavior on the small
frames appearing in concrete theorems below (numpy falls back to
insertion sort under 17 elements), and no universal theorem below
asserts anything about tie order.  When `'年'` is absent the Python code
raises `KeyError` (both inside the `try` and in its `except` fallback);
the model reads position 0 then, and no theorem below exercises that
layout. -/
def sortByYear (t : DisplayTable) : DisplayTable :=
  ⟨t.columns, List.insertionSort (rowLeAt ((findCol t yearName).getD 0)) t.rows⟩

/-- Embeds `df[name] = df[name].astype(str).replace('nan', '') if name in
df.columns` (`app.py` lines 346-351): full-cell replacement of the literal
`nan` by the empty string in one named column. -/
def scrubCol (t : DisplayTable) (name : List Char) : DisplayTable :=
  match findCol t name with
  | some j => ⟨t.columns, t.rows.map (fun r => r.set j (deNan (r.getD j [])))⟩
  | none => t

/-- The three managed identifier columns scrubbed after the year sort. -/
def scrubManaged (t : DisplayTable) : DisplayTable :=
  scrubCol (scrubCol (scrubCol t "分配PID".data) "分配ID".data) "整備結果ID".data

/-- Failure of the add-year handler. -/
inductive AddYearError where
  | duplicateYear
deriving DecidableEq

/-- Embeds the add-year button handler (`app.py` lines 316-355) on a
stripped year string: refuse a year already present (warning "既に存在します",
no state change); otherwise append a row with empty identifier cells,
sort by the numeric year key, reset the index (a no-op here) and scrub the
identifier columns. -/
def addYear (t : DisplayTable) (newYear : List Char) : Except AddYearError DisplayTable :=
  if newYear ∈ existingYears t then .error .duplicateYear
  else .ok (scrubManaged (sortByYear (concatRow t [newYear, [], [], []])))

/-! ### Basic properties of the string primitives -/

theorem pySplit_ne_nil (sep : Char) (s : List Char) : pySplit sep s ≠ [] := by
  cases s with
  | nil => simp [pySplit]
  | cons c rest =>
    simp only [pySplit]
    split
    · simp
    · split <;> simp

theorem pyJoin_pySplit (sep : Char) (s : List Char) :
    pyJoin sep (pySplit sep s) = s := by
  induction s with
  | nil => rfl
  | cons c rest ih =>
    simp only [pySplit]
    by_cases h : c = sep
    · rw [if_pos h]
      cases hs : pySplit sep rest with
      | nil => exact absurd hs (pySplit_ne_nil sep rest)
      | cons x xs =>
        rw [hs] at ih
        simp only [pyJoin, List.nil_append]
        rw [← hs] at ih ⊢
        rw [show pyJoin sep (pySplit sep rest) = rest from ih, h]
  
    · rw [if_neg h]
      cases hs : pySplit sep rest with
      | nil => exact absurd hs (pySplit_ne_nil sep rest)
      | cons x xs =>
        rw [hs] at ih
        cases xs with
        | nil =>
          simp only [pyJoin] at ih ⊢
          rw [ih]
        | cons y ys =>
          simp only [pyJoin] at ih ⊢
          rw [List.cons_append, ih]

theorem pdLines_of_no_cr (s : List Char) (h : '\r' ∉ s) :
    pdLines s = pySplit '\n' s := by
  induction s with
  | nil => rfl
  | cons c rest ih =>
    have hc : c ≠ '\r' := fun hc => h (hc ▸ List.mem_cons_self c rest)
    have hrest : '\r' ∉ rest := fun hr => h (List.mem_cons_of_mem c hr)
    by_cases hn : c = '\n'
    · subst hn
      rw [pdLines.eq_4, ih hrest]
      simp [pySplit]
    · rw [pdLines.eq_5 c rest (fun _ hc2 _ => hc hc2) (fun hc2 => hc hc2)
        (fun hn2 => hn hn2), ih hrest]
      simp only [pySplit, if_neg hn]

/-! ### Helper lemmas about list updates -/

theorem getD_set_eq {α : Type} (l : List α) (n : Nat) (v d : α) (h : n < l.length) :
    (l.set n v).getD n d = v := by
  rw [List.getD_eq_getElem?_getD, List.getElem?_set_self h]
  rfl

theorem getD_set_ne {α : Type} (l : List α) (n j : Nat) (v d : α) (h : n ≠ j) :
    (l.set n v).getD j d = l.getD j d := by
  rw [List.getD_eq_getElem?_getD, List.getElem?_set_ne h, ← List.getD_eq_getElem?_getD]

theorem set_getD_self {α : Type} (l : List α) (n : Nat) (d : α) (h : n < l.length) :
    l.set n (l.getD n d) = l := by
  apply List.ext_getElem?
  intro m
  rw [List.getElem?_set]
  by_cases hm : n = m
  · subst hm
    rw [if_pos rfl, if_pos h, List.getD_eq_getElem _ _ h, List.getElem?_eq_getElem h]
  · rw [if_neg hm]

theorem getD_map_of_lt {α β : Type} (f : α → β) (l : List α) (k : Nat) (d : β) (d2 : α)
    (h : k < l.length) : (l.map f).getD k d = f (l.getD k d2) := by
  rw [List.getD_eq_getElem _ _ (by simpa using h), List.getD_eq_getElem _ _ h,
    List.getElem_map]

/-! ### Properties of the patch loop -/

theorem patchAll_length (rows : List (List (List Char))) :
    ∀ (lines : List (List Char)) (i : Nat), (patchAll lines i rows).length = lines.length := by
  induction rows with
  | nil => intro lines i; rfl
  | cons row rest ih =>
    intro lines i
    simp only [patchAll]
    rw [ih]
    split
    · rw [List.length_set]
    · rfl

theorem patchAll_out (rows : List (List (List Char))) :
    ∀ (lines : List (List Char)) (i : Nat), lines.length ≤ i + 1 →
      patchAll lines i rows = lines := by
  induction rows with
  | nil => intro lines i _; rfl
  | cons row rest ih =>
    intro lines i h
    simp only [patchAll]
    rw [if_neg (by omega)]
    exact ih lines (i + 1) (by omega)

theorem patchAll_take (rows : List (List (List Char))) :
    ∀ (lines : List (List Char)) (i : Nat),
      patchAll lines i rows = patchAll lines i (rows.take (lines.length - (i + 1))) := by
  induction rows with
  | nil => intro lines i; rw [List.take_nil]
  | cons row rest ih =>
    intro lines i
    by_cases hlt : i + 1 < lines.length
    · rw [show lines.length - (i + 1) = (lines.length - (i + 2)) + 1 from by omega,
        List.take_succ_cons]
      simp only [patchAll]
      rw [if_pos hlt, ih]
      rw [List.length_set]
    · rw [patchAll_out (row :: rest) lines i (by omega),
        patchAll_out ((row :: rest).take (lines.length - (i + 1))) lines i (by omega)]

theorem patchAll_id (rows : List (List (List Char))) :
    ∀ (lines : List (List Char)) (i : Nat),
      (∀ k, k < rows.length →
        patchLine (lines.getD (i + 1 + k) []) (rows.getD k []) = lines.getD (i + 1 + k) []) →
      patchAll lines i rows = lines := by
  induction rows with
  | nil => intro lines i _; rfl
  | cons row rest ih =>
    intro lines i h
    have hshift : ∀ k, k < rest.length →
        patchLine (lines.getD (i + 1 + 1 + k) []) (rest.getD k []) =
          lines.getD (i + 1 + 1 + k) [] := by
      intro k hk
      have h2 := h (k + 1) (by simp; omega)
      rw [show i + 1 + (k + 1) = i + 1 + 1 + k from by omega, List.getD_cons_succ] at h2
      exact h2
    simp only [patchAll]
    by_cases hlt : i + 1 < lines.length
    · rw [if_pos hlt]
      have h0 := h 0 (by simp)
      simp only [Nat.add_zero, List.getD_cons_zero] at h0
      rw [h0, set_getD_self _ _ _ hlt]
      exact ih lines (i + 1) hshift
    · rw [if_neg hlt]
      exact ih lines (i + 1) hshift

theorem patchAll_getD (rows : List (List (List Char))) :
    ∀ (lines : List (List Char)) (i j : Nat),
      (patchAll lines i rows).getD j [] =
        if i + 1 ≤ j ∧ j < i + 1 + rows.length ∧ j < lines.length then
          patchLine (lines.getD j []) (rows.getD (j - (i + 1)) [])
        else lines.getD j [] := by
  induction rows with
  | nil =>
    intro lines i j
    rw [if_neg (by simp only [List.length_nil]; omega)]
    rfl
  | cons row rest ih =>
    intro lines i j
    simp only [patchAll]
    by_cases hlt : i + 1 < lines.length
    · rw [if_pos hlt, ih]
      simp only [List.length_set]
      by_cases hw : i + 1 + 1 ≤ j ∧ j < i + 1 + 1 + rest.length ∧ j < lines.length
      · rw [if_pos hw, if_pos (by simp only [List.length_cons]; omega)]
        rw [getD_set_ne _ _ _ _ _ (by omega : i + 1 ≠ j)]
        rw [show j - (i + 1) = (j - (i + 1 + 1)) + 1 from by omega, List.getD_cons_succ]
      · rw [if_neg hw]
        by_cases hj : j = i + 1
        · subst hj
          rw [if_pos (by simp only [List.length_cons]; omega)]
          rw [getD_set_eq _ _ _ _ hlt, Nat.sub_self, List.getD_cons_zero]
        · rw [if_neg (by simp only [List.length_cons]; omega)]
          exact getD_set_ne _ _ _ _ _ (by omega)
    · rw [if_neg hlt, ih]
      rw [if_neg (by omega), if_neg (by omega)]

/-! ### Per-line facts about the patched field list -/

theorem deNan_of_ne (c : List Char) (h : c ≠ "nan".data) : deNan c = c :=
  if_neg h

theorem patchLine_short (line : List Char) (row : List (List Char))
    (h : (pySplit ',' line).length < 4) : patchLine line row = line := by
  unfold patchLine
  rw [if_neg (by omega)]

theorem padRow_getD_lt (w : Nat) (vs : List (List Char)) (k : Nat) (h : k < vs.length) :
    (padRow w vs).getD k none = some (vs.getD k []) := by
  unfold padRow
  rw [List.getD_append _ _ _ _ (by simpa using h)]
  exact getD_map_of_lt some vs k none [] h

theorem displayRow_padRow (vs : List (List Char)) (w : Nat) (h4 : 4 ≤ vs.length) :
    displayRow (padRow w vs) = [vs.getD 0 [], vs.getD 1 [], vs.getD 2 [], vs.getD 3 []] := by
  unfold displayRow
  rw [padRow_getD_lt w vs 0 (by omega), padRow_getD_lt w vs 1 (by omega),
    padRow_getD_lt w vs 2 (by omega), padRow_getD_lt w vs 3 (by omega)]
  rfl

theorem patchLine_displayRow_self (w : Nat) (d : List Char)
    (hnan : ∀ c ∈ (displayRow (padRow w (pySplit ',' d))).drop 1, c ≠ "nan".data) :
    patchLine d (displayRow (padRow w (pySplit ',' d))) = d := by
  by_cases h4 : 4 ≤ (pySplit ',' d).length
  · have hd := displayRow_padRow (pySplit ',' d) w h4
    rw [hd] at hnan ⊢
    simp only [List.drop_succ_cons, List.drop_zero, List.mem_cons, List.not_mem_nil,
      or_false, forall_eq_or_imp, forall_eq] at hnan
    unfold patchLine
    rw [if_pos h4]
    unfold patchedValues
    simp only [List.getD_cons_succ, List.getD_cons_zero]
    rw [deNan_of_ne _ hnan.1, deNan_of_ne _ hnan.2.1, deNan_of_ne _ hnan.2.2]
    rw [set_getD_self _ _ _ (by omega), set_getD_self _ _ _ (by omega),
      set_getD_self _ _ _ (by omega)]
    exact pyJoin_pySplit ',' d
  · exact patchLine_short d _ (by omega)

/-! ### Characterizations of successful parses -/

theorem readCsv_ok_cases (text : List Char) (df : PdFrame) (h : readCsv text = .ok df) :
    ∃ header dataLines,
      (pdLines text).filter (fun l => !l.isEmpty) = header :: dataLines ∧
      (∀ l ∈ dataLines, (pySplit ',' l).length ≤ (pySplit ',' header).length) ∧
      df = ⟨pySplit ',' header,
        dataLines.map (fun l => padRow (pySplit ',' header).length (pySplit ',' l))⟩ := by
  unfold readCsv at h
  cases hnb : (pdLines text).filter (fun l => !l.isEmpty) with
  | nil => rw [hnb] at h; exact absurd h (by simp)
  | cons header dataLines =>
    rw [hnb] at h
    dsimp only at h
    by_cases hall :
        dataLines.all (fun l => (pySplit ',' l).length ≤ (pySplit ',' header).length) = true
    · rw [if_pos hall] at h
      refine ⟨header, dataLines, rfl, ?_, ?_⟩
      · simpa using hall
      · cases h; rfl
    · rw [if_neg hall] at h
      exact absurd h (by simp)

theorem load_ok_cases (text : List Char) (T : DisplayTable)
    (h : load_csv_from_text text = .ok T) :
    ∃ header dataLines,
      (pdLines text).filter (fun l => !l.isEmpty) = header :: dataLines ∧
      (∀ l ∈ dataLines, (pySplit ',' l).length ≤ (pySplit ',' header).length) ∧
      ((4 ≤ (pySplit ',' header).length ∧ T.columns = displayColumns ∧
          T.rows = dataLines.map
            (fun l => displayRow (padRow (pySplit ',' header).length (pySplit ',' l)))) ∨
        ((pySplit ',' header).length < 4 ∧ T.columns = pySplit ',' header ∧
          T.rows = dataLines.map
            (fun l => (padRow (pySplit ',' header).length (pySplit ',' l)).map astypeStr))) := by
  unfold load_csv_from_text at h
  cases hr : readCsv text with
  | error e => rw [hr] at h; exact absurd h (by simp)
  | ok df =>
    rw [hr] at h
    obtain ⟨header, dataLines, hnb, hall, hdf⟩ := readCsv_ok_cases text df hr
    subst hdf
    dsimp only at h
    refine ⟨header, dataLines, hnb, hall, ?_⟩
    by_cases h4 : 4 ≤ (pySplit ',' header).length
    · rw [if_pos h4] at h
      cases h
      refine Or.inl ⟨h4, rfl, ?_⟩
      rw [List.map_map]
      rfl
    · rw [if_neg h4] at h
      cases h
      refine Or.inr ⟨by omega, rfl, ?_⟩
      rw [List.map_map]
      rfl

theorem filter_structure (L : List (List Char)) (hL : L ≠ [])
    (hblank : ∀ l ∈ L.dropLast, l ≠ []) :
    L = L.filter (fun l => !l.isEmpty) ∨ L = L.filter (fun l => !l.isEmpty) ++ [[]] := by
  have h1 : L.dropLast.filter (fun l => !l.isEmpty) = L.dropLast :=
    List.filter_eq_self.mpr (fun a ha => by
      simpa [List.isEmpty_iff] using hblank a ha)
  have hsplit : L.dropLast ++ [L.getLast hL] = L := List.dropLast_append_getLast hL
  have hfL : L.filter (fun l => !l.isEmpty) =
      L.dropLast ++ List.filter (fun l => !l.isEmpty) [L.getLast hL] := by
    conv_lhs => rw [← hsplit]
    rw [List.filter_append, h1]
  by_cases hlast : L.getLast hL = []
  · right
    rw [hfL, hlast]
    rw [show List.filter (fun l => !l.isEmpty) [([] : List Char)] = [] from rfl,
      List.append_nil]
    exact (hlast ▸ hsplit).symm
  · left
    rw [hfL]
    rw [show List.filter (fun l => !l.isEmpty) [L.getLast hL] = [L.getLast hL] from by
      simp [List.isEmpty_iff, hlast]]
    rw [hsplit]

/-! ### C1: the round-trip property of the patch engine -/

/-- C1 (amended).  Round-trip: applying the patch engine to an original
text together with its own unedited parsed table reproduces the text,
provided the text contains no carriage return (the patch engine splits on
`'\n'` only, while the parser uses universal newlines, so a `\r\n` file
loses the `'\r'` of every patched four-field line), contains no
double-quote character (pandas parses `"a,b",X,Y,Z` into four cells while
the patch loop rewrites the raw five-field comma split, turning that line
into `"a,X,Y,Z,Z`), no line other than a final empty one after a trailing
newline is blank (the parser skips blank lines while the patch engine
counts physical lines, so a blank line misaligns row and line indices),
no physical line splits into more comma-separated fields than the first
line (pandas silently treats uniformly wider rows as carrying an index
column, shifting every managed cell one raw field to the right of where
the patch loop writes it), and no parsed cell in row positions 1 onward
equals the literal `nan` (the write token turns such a cell into the
empty string).  The quote and width conditions state on the text itself
the region where `readCsv` is a faithful model of the pandas reader. -/
theorem C1_roundtrip_amended (text : List Char) (T : DisplayTable)
    (hcr : '\r' ∉ text)
    (_hq : '"' ∉ text)
    (hblank : ∀ l ∈ (pySplit '\n' text).dropLast, l ≠ [])
    (_hwide : ∀ l ∈ pySplit '\n' text,
      (pySplit ',' l).length ≤
        (pySplit ',' ((pySplit '\n' text).headD [])).length)
    (hok : load_csv_from_text text = .ok T)
    (hnan : ∀ row ∈ T.rows, ∀ c ∈ row.drop 1, c ≠ "nan".data) :
    applyEdits text T.rows = text := by
  obtain ⟨header, dataLines, hnb, hall, hmode⟩ := load_ok_cases text T hok
  rw [pdLines_of_no_cr text hcr] at hnb
  have hLne : pySplit '\n' text ≠ [] := pySplit_ne_nil '\n' text
  have hstruct := filter_structure (pySplit '\n' text) hLne hblank
  rw [hnb] at hstruct
  have hrows : ∃ g : List Char → List (List Char),
      T.rows = dataLines.map g ∧ ∀ d ∈ dataLines, patchLine d (g d) = d := by
    rcases hmode with ⟨_, _, hrows⟩ | ⟨h4, _, hrows⟩
    · refine ⟨_, hrows, ?_⟩
      intro d hd
      apply patchLine_displayRow_self
      intro c hc
      have hmem : displayRow (padRow (pySplit ',' header).length (pySplit ',' d)) ∈
          T.rows := by
        rw [hrows]
        exact List.mem_map.mpr ⟨d, hd, rfl⟩
      exact hnan _ hmem c hc
    · refine ⟨_, hrows, ?_⟩
      intro d hd
      refine patchLine_short d _ ?_
      have hb := hall d hd
      omega
  obtain ⟨g, hTrows, hid⟩ := hrows
  have hpatch : patchAll (pySplit '\n' text) 0 T.rows = pySplit '\n' text := by
    apply patchAll_id
    intro k hk
    rw [hTrows] at hk ⊢
    rw [List.length_map] at hk
    have hLk : (pySplit '\n' text).getD (0 + 1 + k) [] = dataLines.getD k [] := by
      rcases hstruct with hS | hS
      · rw [hS, show 0 + 1 + k = k + 1 from by omega, List.getD_cons_succ]
      · rw [hS, show 0 + 1 + k = k + 1 from by omega, List.cons_append,
          List.getD_cons_succ, List.getD_append _ _ _ _ hk]
    rw [hLk, getD_map_of_lt g dataLines k [] [] hk]
    refine hid _ ?_
    rw [List.getD_eq_getElem _ _ hk]
    exact List.getElem_mem hk
  unfold applyEdits
  rw [hpatch]
  exact pyJoin_pySplit '\n' text

/-- C1 (counterexamples).  As stated over every successfully parsed
original, the round-trip fails: (1) a managed cell holding the literal
token `nan` is written back as the empty string; (2) a CRLF-terminated
file loses the `'\r'` of every patched data line; (3) a blank line before
the header makes row 0 patch the header line.  Each triple states the
successful parse of the original and the inequality of the patched output
with the original. -/
theorem C1_roundtrip_counterexample :
    (load_csv_from_text ("y,p,i,r\n2020,nan,B,C").data =
        .ok ⟨displayColumns, [["2020".data, "nan".data, "B".data, "C".data]]⟩ ∧
      applyEdits ("y,p,i,r\n2020,nan,B,C").data
          [["2020".data, "nan".data, "B".data, "C".data]] ≠
        ("y,p,i,r\n2020,nan,B,C").data) ∧
    (load_csv_from_text ("y,p,i,r\r\n2020,A,B,C\r\n").data =
        .ok ⟨displayColumns, [["2020".data, "A".data, "B".data, "C".data]]⟩ ∧
      applyEdits ("y,p,i,r\r\n2020,A,B,C\r\n").data
          [["2020".data, "A".data, "B".data, "C".data]] ≠
        ("y,p,i,r\r\n2020,A,B,C\r\n").data) ∧
    (load_csv_from_text ("\ny,p,i,r\n2020,A,B,C").data =
        .ok ⟨displayColumns, [["2020".data, "A".data, "B".data, "C".data]]⟩ ∧
      applyEdits ("\ny,p,i,r\n2020,A,B,C").data
          [["2020".data, "A".data, "B".data, "C".data]] ≠
        ("\ny,p,i,r\n2020,A,B,C").data) := by
  decide

/-- C1 (witness).  The amended round-trip at a concrete two-row file. -/
theorem C1_roundtrip_witness :
    applyEdits ("year,pid,id,rid\n2020,A1,B1,C1\n2021,A2,B2,C2\n").data
      [["2020".data, "A1".data, "B1".data, "C1".data],
       ["2021".data, "A2".data, "B2".data, "C2".data]] =
      ("year,pid,id,rid\n2020,A1,B1,C1\n2021,A2,B2,C2\n").data :=
  C1_roundtrip_amended _
    ⟨displayColumns,
      [["2020".data, "A1".data, "B1".data, "C1".data],
       ["2021".data, "A2".data, "B2".data, "C2".data]]⟩
    (by decide) (by decide) (by decide) (by decide) (by decide) (by decide)

/-! ### Positional facts about the patched field list -/

theorem patchedValues_length (vs row : List (List Char)) :
    (patchedValues vs row).length = vs.length := by
  simp [patchedValues, List.length_set]

theorem patchedValues_getD_zero (vs row : List (List Char)) :
    (patchedValues vs row).getD 0 [] = vs.getD 0 [] := by
  unfold patchedValues
  rw [getD_set_ne _ _ _ _ _ (by omega), getD_set_ne _ _ _ _ _ (by omega),
    getD_set_ne _ _ _ _ _ (by omega)]

theorem patchedValues_getD_of_ge (vs row : List (List Char)) (j : Nat) (h : 4 ≤ j) :
    (patchedValues vs row).getD j [] = vs.getD j [] := by
  unfold patchedValues
  rw [getD_set_ne _ _ _ _ _ (by omega), getD_set_ne _ _ _ _ _ (by omega),
    getD_set_ne _ _ _ _ _ (by omega)]

theorem patchedValues_getD_one (vs row : List (List Char)) (h : 1 < vs.length) :
    (patchedValues vs row).getD 1 [] = deNan (row.getD 1 []) := by
  unfold patchedValues
  rw [getD_set_ne _ _ _ _ _ (by omega), getD_set_ne _ _ _ _ _ (by omega),
    getD_set_eq _ _ _ _ h]

theorem patchedValues_getD_two (vs row : List (List Char)) (h : 2 < vs.length) :
    (patchedValues vs row).getD 2 [] = deNan (row.getD 2 []) := by
  unfold patchedValues
  rw [getD_set_ne _ _ _ _ _ (by omega),
    getD_set_eq _ _ _ _ (by rw [List.length_set]; omega)]

theorem patchedValues_getD_three (vs row : List (List Char)) (h : 3 < vs.length) :
    (patchedValues vs row).getD 3 [] = deNan (row.getD 3 []) := by
  unfold patchedValues
  rw [getD_set_eq _ _ _ _ (by rw [List.length_set, List.length_set]; omega)]

/-! ### C2: what the patch engine writes on one line, and its frame -/

/-- C2 (confirmed).  On each patched data line `i + 1` (row index in
range, line index in range, at least four comma-split fields) the line is
replaced by the rejoined field list `patchedValues`, which only sets
positions 1-3: its length is unchanged, position 0 (year) and every
position from 4 onward keep their old values, and positions 1-3 receive
the write tokens of the row's `分配PID`, `分配ID`, `整備結果ID` cells —
the cell values themselves whenever they differ from the literal `nan`.
In particular, editing row 0's PID from `A1` to `A9` in the two-row
example file yields exactly the expected output. -/
theorem C2_patch_frame :
    (∀ (lines : List (List Char)) (rows : List (List (List Char))) (i : Nat),
      i < rows.length → i + 1 < lines.length →
      4 ≤ (pySplit ',' (lines.getD (i + 1) [])).length →
      (patchAll lines 0 rows).getD (i + 1) [] =
        pyJoin ',' (patchedValues (pySplit ',' (lines.getD (i + 1) [])) (rows.getD i []))) ∧
    (∀ (vs row : List (List Char)), 4 ≤ vs.length →
      (patchedValues vs row).length = vs.length ∧
      (patchedValues vs row).getD 0 [] = vs.getD 0 [] ∧
      (∀ j, 4 ≤ j → (patchedValues vs row).getD j [] = vs.getD j []) ∧
      (patchedValues vs row).getD 1 [] = deNan (row.getD 1 []) ∧
      (patchedValues vs row).getD 2 [] = deNan (row.getD 2 []) ∧
      (patchedValues vs row).getD 3 [] = deNan (row.getD 3 []) ∧
      (row.getD 1 [] ≠ "nan".data → (patchedValues vs row).getD 1 [] = row.getD 1 []) ∧
      (row.getD 2 [] ≠ "nan".data → (patchedValues vs row).getD 2 [] = row.getD 2 []) ∧
      (row.getD 3 [] ≠ "nan".data → (patchedValues vs row).getD 3 [] = row.getD 3 [])) ∧
    applyEdits ("year,pid,id,rid\n2020,A1,B1,C1\n2021,A2,B2,C2\n").data
        [["2020".data, "A9".data, "B1".data, "C1".data],
         ["2021".data, "A2".data, "B2".data, "C2".data]] =
      ("year,pid,id,rid\n2020,A9,B1,C1\n2021,A2,B2,C2\n").data := by
  refine ⟨?_, ?_, by decide⟩
  · intro lines rows i hi hlen h4
    rw [patchAll_getD, if_pos ⟨by omega, by omega, hlen⟩,
      show i + 1 - (0 + 1) = i from by omega]
    unfold patchLine
    rw [if_pos h4]
  · intro vs row h4
    exact ⟨patchedValues_length vs row, patchedValues_getD_zero vs row,
      fun j hj => patchedValues_getD_of_ge vs row j hj,
      patchedValues_getD_one vs row (by omega),
      patchedValues_getD_two vs row (by omega),
      patchedValues_getD_three vs row (by omega),
      fun hne => by rw [patchedValues_getD_one vs row (by omega), deNan_of_ne _ hne],
      fun hne => by rw [patchedValues_getD_two vs row (by omega), deNan_of_ne _ hne],
      fun hne => by rw [patchedValues_getD_three vs row (by omega), deNan_of_ne _ hne]⟩

/-- C2 (witness).  The per-line equation at the example file, row 0. -/
theorem C2_patch_frame_witness :
    (patchAll (pySplit '\n' ("year,pid,id,rid\n2020,A1,B1,C1\n2021,A2,B2,C2\n").data) 0
        [["2020".data, "A9".data, "B1".data, "C1".data],
         ["2021".data, "A2".data, "B2".data, "C2".data]]).getD 1 [] =
      pyJoin ','
        (patchedValues
          (pySplit ','
            ((pySplit '\n'
              ("year,pid,id,rid\n2020,A1,B1,C1\n2021,A2,B2,C2\n").data).getD 1 []))
          ["2020".data, "A9".data, "B1".data, "C1".data]) :=
  C2_patch_frame.1 _ _ 0 (by decide) (by decide) (by decide)

/-! ### C3: rows beyond the original line count -/

/-- C3 (counterexample).  With one extra edited row beyond the original's
single data line, the patch engine appends nothing: the output equals the
original text and still splits into exactly two lines, where the claim
requires a third, appended line. -/
theorem C3_append_counterexample :
    applyEdits ("y,p,i,r\n2020,A,B,C").data
        [["2020".data, "A".data, "B".data, "C".data],
         ["2031".data, "X".data, "Y".data, "Z".data]] =
      ("y,p,i,r\n2020,A,B,C").data ∧
    (pySplit '\n' (applyEdits ("y,p,i,r\n2020,A,B,C").data
        [["2020".data, "A".data, "B".data, "C".data],
         ["2031".data, "X".data, "Y".data, "Z".data]])).length = 2 := by
  decide

/-- C3 (amended).  The patch engine never appends: the patched line list
keeps exactly the original's line count, and rows beyond that count are
silently ignored (patching with the extra rows equals patching with them
dropped). -/
theorem C3_extra_rows_ignored (text : List Char) (rows : List (List (List Char))) :
    (patchAll (pySplit '\n' text) 0 rows).length = (pySplit '\n' text).length ∧
    applyEdits text rows =
      applyEdits text (rows.take ((pySplit '\n' text).length - 1)) := by
  constructor
  · exact patchAll_length rows _ 0
  · unfold applyEdits
    rw [show (pySplit '\n' text).length - 1 =
        (pySplit '\n' text).length - (0 + 1) from by omega, ← patchAll_take]

/-! ### C9: the literal token nan in an edited managed cell -/

/-- C9 (confirmed).  If a managed cell of the edited row (position 1, 2 or
3) holds the literal three-character string `nan`, the patch engine writes
the empty string at that field position instead of the cell's value; at
the concrete file this turns a user-entered PID `nan` into an empty output
field. -/
theorem C9_nan_scrub :
    (∀ (vs row : List (List Char)) (k : Nat), k = 1 ∨ k = 2 ∨ k = 3 →
      k < vs.length → row.getD k [] = "nan".data →
      (patchedValues vs row).getD k [] = []) ∧
    applyEdits ("y,p,i,r\n2020,A,B,C").data
        [["2020".data, "nan".data, "B".data, "C".data]] =
      ("y,p,i,r\n2020,,B,C").data := by
  constructor
  · intro vs row k hk hlt hnan
    rcases hk with h1 | h2 | h3
    · subst h1
      rw [patchedValues_getD_one vs row (by omega), hnan]
      decide
    · subst h2
      rw [patchedValues_getD_two vs row (by omega), hnan]
      decide
    · subst h3
      rw [patchedValues_getD_three vs row (by omega), hnan]
      decide
  · decide

/-- C9 (witness).  The general nan-scrub fact at a concrete field list. -/
theorem C9_nan_scrub_witness :
    (patchedValues ["2020".data, "A".data, "B".data, "C".data]
        ["2020".data, "nan".data, "B".data, "C".data]).getD 1 [] = [] :=
  C9_nan_scrub.1 _ _ 1 (Or.inl rfl) (by decide) (by decide)

/-! ### C10: data lines with fewer than four fields -/

/-- C10 (confirmed).  Every line whose comma split has fewer than four
fields is left completely unchanged by the patch loop, whatever the
corresponding edited row holds: the row's edits are silently not
written. -/
theorem C10_short_line_untouched (text : List Char) (rows : List (List (List Char)))
    (i : Nat) (h : (pySplit ',' ((pySplit '\n' text).getD (i + 1) [])).length < 4) :
    (patchAll (pySplit '\n' text) 0 rows).getD (i + 1) [] =
      (pySplit '\n' text).getD (i + 1) [] := by
  rw [patchAll_getD]
  split
  · exact patchLine_short _ _ h
  · rfl

/-- C10 (witness).  A two-field data line survives a patch attempt with a
fully populated edited row. -/
theorem C10_short_line_untouched_witness :
    (patchAll (pySplit '\n' ("y,p,i,r\n1,2\n3,4,5,6").data) 0
        [["9".data, "9".data, "9".data, "9".data],
         ["8".data, "8".data, "8".data, "8".data]]).getD 1 [] =
      (pySplit '\n' ("y,p,i,r\n1,2\n3,4,5,6").data).getD 1 [] :=
  C10_short_line_untouched _ _ 0 (by decide)

/-! ### C4: what the parser does with header-only input -/

/-- C4 (counterexample).  Text consisting of only a header line parses
successfully into an empty four-column table — it does not fail with the
EmptyInput error (`pd.errors.EmptyDataError` is raised only when there is
no content at all, and `load_csv_from_bytes` returns the empty frame with
no error message; the surrounding UI then reports a generic load failure,
not the EmptyInput message). -/
theorem C4_header_only_counterexample :
    load_csv_from_text ("year,pid,id,rid\n").data = .ok ⟨displayColumns, []⟩ := by
  decide

/-- C4 (amended).  The EmptyInput error arises exactly when the text has
no non-blank line at all: it is produced for such text, and never
produced once any non-blank line exists.  Quote-free text whose only
non-blank line is the header parses successfully into a table with no
rows, whose columns are the managed labels when the header has at least
four fields (pandas renames empty or duplicate header names in the
degraded case, so only the existence of the column list is asserted
there; the no-quote hypothesis excludes an unterminated quote such as
`"abc`, on which pandas raises a tokenizing error instead). -/
theorem C4_empty_input_amended :
    (∀ text : List Char, (pdLines text).filter (fun l => !l.isEmpty) = [] →
      load_csv_from_text text = .error .emptyInput) ∧
    (∀ text : List Char, (pdLines text).filter (fun l => !l.isEmpty) ≠ [] →
      load_csv_from_text text ≠ .error .emptyInput) ∧
    (∀ (text : List Char) (h : List Char), '"' ∉ text →
      (pdLines text).filter (fun l => !l.isEmpty) = [h] →
      ∃ cols, load_csv_from_text text = .ok ⟨cols, []⟩ ∧
        (4 ≤ (pySplit ',' h).length → cols = displayColumns)) := by
  refine ⟨?_, ?_, ?_⟩
  · intro text hnb
    unfold load_csv_from_text readCsv
    rw [hnb]
  · intro text hne
    unfold load_csv_from_text readCsv
    cases hf : (pdLines text).filter (fun l => !l.isEmpty) with
    | nil => exact absurd hf hne
    | cons header dataLines =>
      dsimp only
      by_cases hall : dataLines.all
          (fun l => (pySplit ',' l).length ≤ (pySplit ',' header).length) = true
      · rw [if_pos hall]
        dsimp only
        split <;> simp
      · rw [if_neg hall]
        simp
  · intro text h hq hnb
    by_cases h4 : 4 ≤ (pySplit ',' h).length
    · refine ⟨displayColumns, ?_, fun _ => rfl⟩
      unfold load_csv_from_text readCsv
      rw [hnb]
      dsimp only
      rw [if_pos (by simp)]
      dsimp only [List.map_nil]
      rw [if_pos h4]
    · refine ⟨pySplit ',' h, ?_, fun hc => absurd hc h4⟩
      unfold load_csv_from_text readCsv
      rw [hnb]
      dsimp only
      rw [if_pos (by simp)]
      dsimp only [List.map_nil]
      rw [if_neg h4]

/-- C4 (witness).  The amended statement at a blank-only file and at a
header-only file. -/
theorem C4_empty_input_witness :
    load_csv_from_text ("\n\n").data = .error .emptyInput ∧
    (∃ cols, load_csv_from_text ("year,pid,id,rid\n").data = .ok ⟨cols, []⟩ ∧
      (4 ≤ (pySplit ',' ("year,pid,id,rid").data).length → cols = displayColumns)) :=
  ⟨C4_empty_input_amended.1 _ (by decide),
    C4_empty_input_amended.2.2 _ ("year,pid,id,rid").data (by decide) (by decide)⟩

/-! ### C5: the two output encoders -/

theorem sjisEncode_isSome_iff (s : List Char) :
    (sjisEncode s).isSome ↔ ∀ c ∈ s, (sjisEncodeChar c).isSome := by
  induction s with
  | nil => simp [sjisEncode]
  | cons c rest ih =>
    rw [show sjisEncode (c :: rest) =
        (match sjisEncodeChar c, sjisEncode rest with
          | some bs, some rest2 => some (bs ++ rest2)
          | _, _ => none) from rfl]
    cases hc : sjisEncodeChar c <;> cases hr : sjisEncode rest <;>
      simp_all [List.forall_mem_cons]

/-- C5 (counterexample).  The remote-overwrite save path encodes with
shift_jis and no fallback: on content containing `'€'`, which shift_jis
cannot represent, the encode step fails (an uncaught
`UnicodeEncodeError`), so encoding does not "never fail" on every save
path. -/
theorem C5_save_encode_counterexample :
    encodeForDropboxSave ("2020,€,B,C").data = none := by
  decide

/-- C5 (amended).  The download-path encoder never fails: it attempts
shift_jis first and, exactly when some character is unrepresentable,
falls back to UTF-8 prefixed with the byte-order-marker character.  The
remote-overwrite save path instead encodes shift_jis only: it succeeds
exactly when every character is representable. -/
theorem C5_encode_amended (s : List Char) :
    ((sjisEncode s).isSome ↔ ∀ c ∈ s, (sjisEncodeChar c).isSome) ∧
    (∀ bs, sjisEncode s = some bs → encodeForDownload s = bs) ∧
    (sjisEncode s = none → encodeForDownload s = utf8Encode ('﻿' :: s)) ∧
    encodeForDropboxSave s = sjisEncode s := by
  refine ⟨sjisEncode_isSome_iff s, ?_, ?_, rfl⟩
  · intro bs h
    unfold encodeForDownload
    rw [h]
  · intro h
    unfold encodeForDownload
    rw [h]

/-- C5 (witness).  The amended statement at concrete content: pure ASCII
encodes via shift_jis; content with `'€'` falls back to BOM plus UTF-8 on
the download path. -/
theorem C5_encode_witness :
    encodeForDownload ("2020,A").data = [50, 48, 50, 48, 44, 65] ∧
    encodeForDownload ("€").data = [239, 187, 191, 226, 130, 172] :=
  ⟨(C5_encode_amended ("2020,A").data).2.1 _ (by decide),
    by rw [(C5_encode_amended ("€").data).2.2.1 (by decide)]; decide⟩

/-! ### C8: the shape of parsed cells -/

/-- C8 (counterexample).  A data row shorter than the header does not pad
the absent managed cells with the empty string: pandas fills them with
NaN, and `astype(str)` renders them as the literal text `nan` in the
returned display table. -/
theorem C8_absent_cell_counterexample :
    load_csv_from_text ("y,p,i,r\n2020,A\n").data =
      .ok ⟨displayColumns, [["2020".data, "A".data, "nan".data, "nan".data]]⟩ := by
  decide

/-- C8 (amended).  For input containing no double-quote character, every
cell of a successfully parsed table is a string: either a verbatim
comma-separated field of some physical line of the input (so present
tokens, including the empty token and identifiers with leading zeros, are
preserved exactly), or the literal text `nan` arising from a structurally
absent field of a short row.  The no-quote hypothesis states on the text
the region where the raw comma split is the program's tokenization: a
quoted cell such as `a,b` parsed by pandas from `"a,b",X,Y,Z` is neither
a raw field of any line nor `nan`. -/
theorem C8_cells_amended (text : List Char) (T : DisplayTable)
    (_hq : '"' ∉ text)
    (h : load_csv_from_text text = .ok T) :
    ∀ row ∈ T.rows, ∀ c ∈ row,
      c = "nan".data ∨ ∃ l ∈ pdLines text, c ∈ pySplit ',' l := by
  obtain ⟨header, dataLines, hnb, hall, hmode⟩ := load_ok_cases text T h
  have hdl : ∀ d ∈ dataLines, d ∈ pdLines text := by
    intro d hd
    apply List.mem_of_mem_filter (p := fun l => !l.isEmpty)
    rw [hnb]
    exact List.mem_cons_of_mem _ hd
  have hcell : ∀ (w : Nat) (vs : List (List Char)) (p : Option (List Char)),
      p ∈ padRow w vs ∨ p = none → astypeStr p = "nan".data ∨ astypeStr p ∈ vs := by
    intro w vs p hp
    rcases hp with hp | hp
    · unfold padRow at hp
      rcases List.mem_append.mp hp with hp | hp
      · obtain ⟨tok, htok, rfl⟩ := List.mem_map.mp hp
        exact Or.inr htok
      · rw [List.eq_of_mem_replicate hp]
        exact Or.inl rfl
    · rw [hp]
      exact Or.inl rfl
  intro row hrow c hc
  rcases hmode with ⟨_, _, hrows⟩ | ⟨_, _, hrows⟩
  · rw [hrows] at hrow
    obtain ⟨d, hd, rfl⟩ := List.mem_map.mp hrow
    have hgetD : ∀ k : Nat,
        (padRow (pySplit ',' header).length (pySplit ',' d)).getD k none ∈
            padRow (pySplit ',' header).length (pySplit ',' d) ∨
          (padRow (pySplit ',' header).length (pySplit ',' d)).getD k none = none := by
      intro k
      by_cases hk : k < (padRow (pySplit ',' header).length (pySplit ',' d)).length
      · left
        rw [List.getD_eq_getElem _ _ hk]
        exact List.getElem_mem hk
      · right
        exact List.getD_eq_default _ _ (by omega)
    unfold displayRow at hc
    simp only [List.mem_cons, List.not_mem_nil, or_false] at hc
    rcases hc with rfl | rfl | rfl | rfl
    all_goals
      rcases hcell _ _ _ (hgetD _) with hx | hx
    all_goals
      first
        | exact Or.inl hx
        | exact Or.inr ⟨d, hdl d hd, hx⟩
  · rw [hrows] at hrow
    obtain ⟨d, hd, rfl⟩ := List.mem_map.mp hrow
    obtain ⟨p, hp, rfl⟩ := List.mem_map.mp hc
    rcases hcell _ _ _ (Or.inl hp) with hx | hx
    · exact Or.inl hx
    · exact Or.inr ⟨d, hdl d hd, hx⟩

/-- C8 (witness).  The amended statement at the short-row file: the
present cell `2020` is a verbatim field of some input line. -/
theorem C8_cells_witness :
    "2020".data = "nan".data ∨
      ∃ l ∈ pdLines ("y,p,i,r\n2020,A\n").data, "2020".data ∈ pySplit ',' l :=
  C8_cells_amended _
    ⟨displayColumns, [["2020".data, "A".data, "nan".data, "nan".data]]⟩ (by decide)
    (by decide) ["2020".data, "A".data, "nan".data, "nan".data] (by decide)
    "2020".data (by decide)

/-! ### C6: adding a duplicate year -/

/-- C6 (confirmed).  For every table and every year string already present
among the table's year values, the add-year handler fails with the
duplicate-year warning and produces no new table: the session state is
only written in the other branch, so the table is left completely
unchanged. -/
theorem C6_duplicate_year (t : DisplayTable) (y : List Char)
    (h : y ∈ existingYears t) : addYear t y = .error .duplicateYear := by
  unfold addYear
  rw [if_pos h]

/-- C6 (witness).  A table already holding year 2024 rejects 2024. -/
theorem C6_duplicate_year_witness :
    addYear ⟨displayColumns, [["2024".data, [], [], []]]⟩ "2024".data =
      .error .duplicateYear :=
  C6_duplicate_year _ _ (by decide)

/-! ### C7: the order after a successful add-year -/

theorem keyLeB_total (a b : Option Nat) : keyLeB a b = true ∨ keyLeB b a = true := by
  cases a <;> cases b <;> simp [keyLeB, Nat.ble_eq]
  omega

theorem keyLeB_trans (a b c : Option Nat) (h1 : keyLeB a b = true)
    (h2 : keyLeB b c = true) : keyLeB a c = true := by
  cases a <;> cases b <;> cases c <;> simp_all [keyLeB, Nat.ble_eq]
  omega

instance rowLeAtTotal (j : Nat) : IsTotal (List (List Char)) (rowLeAt j) :=
  ⟨fun _ _ => keyLeB_total _ _⟩

instance rowLeAtTrans (j : Nat) : IsTrans (List (List Char)) (rowLeAt j) :=
  ⟨fun _ _ _ h1 h2 => keyLeB_trans _ _ _ h1 h2⟩

theorem scrubCol_pid (rows : List (List (List Char))) :
    scrubCol ⟨displayColumns, rows⟩ ("分配PID").data =
      ⟨displayColumns, rows.map (fun r => r.set 1 (deNan (r.getD 1 [])))⟩ := by
  unfold scrubCol
  rw [show findCol ⟨displayColumns, rows⟩ ("分配PID").data = some 1 from rfl]

theorem scrubCol_id (rows : List (List (List Char))) :
    scrubCol ⟨displayColumns, rows⟩ ("分配ID").data =
      ⟨displayColumns, rows.map (fun r => r.set 2 (deNan (r.getD 2 [])))⟩ := by
  unfold scrubCol
  rw [show findCol ⟨displayColumns, rows⟩ ("分配ID").data = some 2 from rfl]

theorem scrubCol_rid (rows : List (List (List Char))) :
    scrubCol ⟨displayColumns, rows⟩ ("整備結果ID").data =
      ⟨displayColumns, rows.map (fun r => r.set 3 (deNan (r.getD 3 [])))⟩ := by
  unfold scrubCol
  rw [show findCol ⟨displayColumns, rows⟩ ("整備結果ID").data = some 3 from rfl]

theorem pairwise_scrub (j : Nat) (hj : j ≠ 0) (rows : List (List (List Char)))
    (h : rows.Pairwise (rowLeAt 0)) :
    (rows.map (fun r => r.set j (deNan (r.getD j [])))).Pairwise (rowLeAt 0) := by
  refine List.Pairwise.map _ ?_ h
  intro a b hab
  unfold rowLeAt at hab ⊢
  rw [getD_set_ne _ _ _ _ _ (by omega), getD_set_ne _ _ _ _ _ (by omega)]
  exact hab

theorem scrub_sort_sorted (rows : List (List (List Char))) :
    (scrubManaged (sortByYear ⟨displayColumns, rows⟩)).rows.Pairwise (rowLeAt 0) := by
  have hsorted : (List.insertionSort (rowLeAt 0) rows).Pairwise (rowLeAt 0) :=
    List.sorted_insertionSort (rowLeAt 0) rows
  have h1 : sortByYear ⟨displayColumns, rows⟩ =
      ⟨displayColumns, List.insertionSort (rowLeAt 0) rows⟩ := by
    unfold sortByYear
    rw [show findCol ⟨displayColumns, rows⟩ yearName = some 0 from rfl]
    rfl
  rw [h1]
  unfold scrubManaged
  rw [scrubCol_pid, scrubCol_id, scrubCol_rid]
  exact pairwise_scrub 3 (by omega) _
    (pairwise_scrub 2 (by omega) _ (pairwise_scrub 1 (by omega) _ hsorted))

set_option maxRecDepth 100000 in
/-- C7 (counterexample).  The code sorts by `astype(float)` of the first
digit run, and the distinct years `9007199254740993` and
`9007199254740992` both convert to the double `9007199254740992.0`:
adding the second to a table holding the first leaves the pair tied, in
insertion order, so the resulting years are not sorted ascending by the
extracted numeric value — the larger year precedes the smaller.  numpy
keeps the order of this two-element tie (small arrays are
insertion-sorted), so this is the program's behavior. -/
theorem C7_addYear_counterexample :
    addYear ⟨displayColumns, [["9007199254740993".data, [], [], []]]⟩
        ("9007199254740992").data =
      .ok ⟨displayColumns,
        [["9007199254740993".data, [], [], []],
         ["9007199254740992".data, [], [], []]]⟩ ∧
    (firstDigitRun ("9007199254740993").data).map digitsVal =
      some 9007199254740993 ∧
    (firstDigitRun ("9007199254740992").data).map digitsVal =
      some 9007199254740992 ∧
    9007199254740992 < 9007199254740993 := by
  decide

/-- C7 (amended).  After a successful add-year on a fresh (no-column) or
canonical four-column table, the resulting rows are pairwise ordered by
the numeric-aware year order `rowLeAt 0`: the `astype(float)` value of
the first digit run of the year cell, ascending, rows without digits
last.  Nothing is asserted about the relative order of rows whose float
keys are equal — distinct years of 16 or more digits may collapse, and
pandas's default quicksort specifies no tie order.  In particular, adding
`2023` to the empty table and then `2021` yields the rows ordered
`[2021, 2023]`. -/
theorem C7_addYear_sorted :
    (∀ (t : DisplayTable) (y : List Char) (t2 : DisplayTable),
      t.columns = [] ∨ t.columns = displayColumns →
      addYear t y = .ok t2 → t2.rows.Pairwise (rowLeAt 0)) ∧
    addYear ⟨[], []⟩ "2023".data =
      .ok ⟨displayColumns, [["2023".data, [], [], []]]⟩ ∧
    addYear ⟨displayColumns, [["2023".data, [], [], []]]⟩ "2021".data =
      .ok ⟨displayColumns,
        [["2021".data, [], [], []], ["2023".data, [], [], []]]⟩ := by
  refine ⟨?_, by decide, by decide⟩
  intro t y t2 hcols hok
  unfold addYear at hok
  by_cases hdup : y ∈ existingYears t
  · rw [if_pos hdup] at hok
    exact absurd hok (by simp)
  · rw [if_neg hdup] at hok
    have hX := Except.ok.inj hok
    subst hX
    rcases hcols with hc | hc
    · rw [show concatRow t [y, [], [], []] = ⟨displayColumns, [[y, [], [], []]]⟩ from by
        unfold concatRow
        rw [if_pos hc]]
      exact scrub_sort_sorted _
    · have hne : t.columns ≠ [] := by
        rw [hc]
        decide
      rw [show concatRow t [y, [], [], []] =
          ⟨displayColumns, t.rows ++ [[y, [], [], []]]⟩ from by
        unfold concatRow
        rw [if_neg hne, hc]]
      exact scrub_sort_sorted _

/-- C7 (witness).  The general order property at the concrete two-row
result of the 2023-then-2021 additions. -/
theorem C7_addYear_sorted_witness :
    List.Pairwise (rowLeAt 0)
      [["2021".data, [], [], []], ["2023".data, [], [], []]] :=
  C7_addYear_sorted.1 ⟨displayColumns, [["2023".data, [], [], []]]⟩ "2021".data
    ⟨displayColumns, [["2021".data, [], [], []], ["2023".data, [], [], []]]⟩
    (Or.inr rfl) (by decide)
